import Mathlib

/-!
Verification of the host identity-resolution shim and related helpers of the
EncoreTechnologies terraform-provider-vsphere repository.

The Go sources are shallowly embedded: each govmomi / REST / SDK call is a
field of an explicit "world" structure describing what the remote vSphere
session would answer, and each Go function becomes a pure Lean function over
that world.  Go multiple return values `(x, err)` become sums; `os.Exit`
(which the source calls inside `FromHostname`) and runtime panics become
explicit outcomes, since those paths never return to the caller.
-/

/-- vim25/types.ManagedObjectReference: a typed reference to an inventory
object (`Type` and `Value` fields). -/
structure ManagedObjectReference where
  type : String
  value : String
deriving DecidableEq, Repr

/-- mo.HostSystem as used by `FromHostname`: the container-view retrieval asks
only for the `name` property, and the object carries its own reference in
`Self`. -/
structure MoHostSystem where
  self : ManagedObjectReference
  name : String
deriving DecidableEq, Repr

/-- object.HostSystem: the high-level host object; `Reference()` is `ref` and
`Name()` is `name`. -/
structure HostSystem where
  ref : ManagedObjectReference
  name : String
deriving DecidableEq, Repr

/-- HostReturn from host_system_helper.go: the esxi host id key name together
with its value, used to report which identifier flavor resolved a host. -/
structure HostReturn where
  idName : String
  value : String
deriving DecidableEq, Repr

/-- Go `error` values, abstracted to the identities the sources distinguish:
the sentinel errors of the hostsystem package, the soap fault classified by
viapi.IsManagedObjectNotFoundError, the specific fmt.Errorf messages the
package constructs (kept as constructors, since only their identity matters),
and opaque transport or API failures. -/
inductive GoError where
  /-- soap fault for a missing managed object, the class recognized by
  viapi.IsManagedObjectNotFoundError -/
  | managedObjectNotFound (refValue : String)
  /-- ErrHostnameNotFound sentinel -/
  | hostnameNotFound
  /-- ErrHostnameOrIDNotFound sentinel -/
  | hostnameOrIDNotFound
  /-- fmt.Errorf: more than one host with hostname %s was found -/
  | ambiguousHostname (hostname : String)
  /-- fmt.Errorf: no valid tf id attribute passed -/
  | noValidTfIDAttribute
  /-- fmt.Errorf wrapping in FromHostname: error trying to retrieve host
  object reference -/
  | objectRefRetrieval (inner : GoError)
  /-- fmt.Errorf: invalid import format (iscsi software adapter import) -/
  | invalidImportFormat
  /-- fmt.Errorf wrapping in the iscsi import: error retrieving host -/
  | importHostRetrieval (inner : GoError)
  /-- fmt.Errorf wrapping in the iscsi import: error retrieving storage
  properties -/
  | importStorageProps (inner : GoError)
  /-- fmt.Errorf wrapping in the iscsi import: error retrieving the iscsi
  software adapter -/
  | importAdapter (inner : GoError)
  /-- fmt.Errorf wrapping in vsphereVcenterDNSUpdate -/
  | dnsUpdateFailed (inner : GoError)
  /-- fmt.Errorf: maintenance-mode task finished in a non-success state -/
  | taskFailed (state : String)
  /-- any other transport or API failure, opaque to the sources -/
  | transport (msg : String)
deriving DecidableEq, Repr

/-- Modelled from the spec: viapi.IsManagedObjectNotFoundError (the viapi
helper package is not among the given sources) classifies exactly the soap
fault for a missing managed object, per the spec phrase about a
"managed object not found" classified error. -/
def IsManagedObjectNotFoundError : GoError → Bool
  | .managedObjectNotFound _ => true
  | _ => false

/-- Go errors.Is(err, ErrHostnameNotFound): the sources never wrap with %w,
so the sentinel matches only itself. -/
def errIsHostnameNotFound : GoError → Bool
  | .hostnameNotFound => true
  | _ => false

/-- Result of a Go function returning `(value, error)` where the function can
also terminate the process (`os.Exit`). -/
inductive GoOutcome (α : Type) where
  | ok (a : α)
  | err (e : GoError)
  /-- the process terminated via os.Exit with this code; nothing is returned -/
  | exit (code : Nat)
deriving DecidableEq, Repr

/-- Result of a Go function whose returned tuple is kept whole in `ret`
(e.g. `(host, HostReturn, err)`), and that can also terminate the process. -/
inductive GoResult (α : Type) where
  | ret (a : α)
  /-- the process terminated via os.Exit with this code -/
  | exit (code : Nat)
  /-- the goroutine panicked (nil pointer dereference) -/
  | panicked
deriving DecidableEq, Repr

/-- The vSphere session as the hostsystem helpers observe it: one field per
govmomi call the sources make.  `Except` results model the `(value, err)`
returns of the underlying RPCs. -/
structure World where
  /-- finder.ObjectReference for a given reference -/
  objectReference : ManagedObjectReference → Except GoError HostSystem
  /-- finder.DatacenterList(ctx, "*"): all datacenters visible to the session -/
  datacenterList : Except GoError (List ManagedObjectReference)
  /-- viewMgr.CreateContainerView rooted at a given datacenter -/
  createContainerView : ManagedObjectReference → Except GoError Unit
  /-- dcView.RetrieveWithFilter for HostSystem names under a datacenter -/
  retrieveHosts : ManagedObjectReference → Except GoError (List MoHostSystem)

/-- FromID: locates a HostSystem by its managed object reference ID, by
resolving the reference `{Type: "HostSystem", Value: id}`; the govmomi error
is returned unchanged. -/
def FromID (w : World) (id : String) : Except GoError HostSystem :=
  w.objectReference (ManagedObjectReference.mk "HostSystem" id)

/-- Inner loop of FromHostname over one datacenter's retrieved hosts, with the
running duplicate `counter` and the host resolved so far.  `Sum.inl` is an
early return out of FromHostname; `Sum.inr` continues with the updated state. -/
def scanHosts (w : World) (hostname : String) :
    List MoHostSystem → Nat → Option HostSystem →
    GoOutcome HostSystem ⊕ (Nat × Option HostSystem)
  | [], counter, host => Sum.inr (counter, host)
  | h :: rest, counter, host =>
    if h.name = hostname then
      if counter + 1 > 1 then
        Sum.inl (.err (.ambiguousHostname hostname))
      else
        match w.objectReference h.self with
        | .error e => Sum.inl (.err (.objectRefRetrieval e))
        | .ok ref => scanHosts w hostname rest (counter + 1) (some ref)
    else
      scanHosts w hostname rest counter host

/-- Outer loop of FromHostname over the datacenter list.  A failure of
CreateContainerView or RetrieveWithFilter is an `os.Exit(1)` in the source.
After the loop, a resolved host is returned if one was found, else the
ErrHostnameNotFound sentinel. -/
def scanDCs (w : World) (hostname : String) :
    List ManagedObjectReference → Nat → Option HostSystem → GoOutcome HostSystem
  | [], _, host =>
    match host with
    | some h => .ok h
    | none => .err .hostnameNotFound
  | dc :: rest, counter, host =>
    match w.createContainerView dc with
    | .error _ => .exit 1
    | .ok _ =>
      match w.retrieveHosts dc with
      | .error _ => .exit 1
      | .ok moHosts =>
        match scanHosts w hostname moHosts counter host with
        | Sum.inl out => out
        | Sum.inr (c, h) => scanDCs w hostname rest c h

/-- FromHostname: locates a HostSystem by hostname across all datacenters
visible to the session, rejecting duplicates; returns the govmomi error of
DatacenterList unchanged when listing fails. -/
def FromHostname (w : World) (hostname : String) : GoOutcome HostSystem :=
  match w.datacenterList with
  | .error e => .err e
  | .ok dcs => scanDCs w hostname dcs 0 none

/-- schema.ResourceData as the shim consumes it: the resource id plus the
string attributes, where `none` models a nil `d.Get` result and `some ""` an
empty string. -/
structure ResourceData where
  id : String
  attrs : List (String × Option String)
deriving DecidableEq, Repr

/-- d.Get for a string attribute. -/
def ResourceData.get (d : ResourceData) (k : String) : Option String :=
  match d.attrs.find? (fun p => p.1 = k) with
  | some p => p.2
  | none => none

/-- d.Set for a string attribute. -/
def ResourceData.set (d : ResourceData) (k v : String) : ResourceData :=
  { d with attrs := (k, some v) :: d.attrs }

/-- The guard `d.Get(k) != nil && d.Get(k) != ""` of FromHostnameOrID. -/
def attrSet (d : ResourceData) (k : String) : Bool :=
  match d.get k with
  | some s => !(s = "")
  | none => false

/-- FromHostnameOrID: locates a HostSystem by either id or hostname depending
on what is set in the ResourceData, preferring host_system_id; the HostReturn
reports the attribute consulted and its value, and is returned alongside the
error when the lookup fails. -/
def FromHostnameOrID (w : World) (d : ResourceData) :
    GoResult (Option HostSystem × HostReturn × Option GoError) :=
  if attrSet d "host_system_id" then
    let tfVal := (d.get "host_system_id").getD ""
    match FromID w tfVal with
    | .ok host => .ret (some host, HostReturn.mk "host_system_id" tfVal, none)
    | .error e => .ret (none, HostReturn.mk "host_system_id" tfVal, some e)
  else if attrSet d "hostname" then
    let tfVal := (d.get "hostname").getD ""
    match FromHostname w tfVal with
    | .ok host => .ret (some host, HostReturn.mk "hostname" tfVal, none)
    | .err e => .ret (none, HostReturn.mk "hostname" tfVal, some e)
    | .exit c => .exit c
  else
    .ret (none, HostReturn.mk "" "", some .noValidTfIDAttribute)

/-- CheckIfHostnameOrID: determines whether an id exists as either a vmware
generated host id or a hostname; FromID is tried first, and FromHostname only
when the FromID error is classified as managed-object-not-found. -/
def CheckIfHostnameOrID (w : World) (tfID : String) :
    GoResult (Option HostSystem × HostReturn × Option GoError) :=
  match FromID w tfID with
  | .error e =>
    if !IsManagedObjectNotFoundError e then
      .ret (none, HostReturn.mk "" "", some e)
    else
      match FromHostname w tfID with
      | .err e2 =>
        if !errIsHostnameNotFound e2 then
          .ret (none, HostReturn.mk "" "", some e2)
        else
          .ret (none, HostReturn.mk "" "", some .hostnameOrIDNotFound)
      | .ok host => .ret (some host, HostReturn.mk "hostname" host.name, none)
      | .exit c => .exit c
  | .ok host =>
    .ret (some host, HostReturn.mk "host_system_id" host.ref.value, none)

/-- A failure-free vSphere inventory: the datacenters visible to the session,
each with the HostSystem objects its container view retrieves.  Its induced
`World` (below) answers every govmomi call the helpers make without transport
failures, per the govmomi contract that ObjectReference resolves to the object
at the given reference when it exists. -/
structure Inventory where
  dcs : List (ManagedObjectReference × List MoHostSystem)
deriving Repr

/-- The hosts of a list of datacenters, in scan order. -/
def flattenHosts (ds : List (ManagedObjectReference × List MoHostSystem)) :
    List MoHostSystem :=
  ds.foldr (fun p acc => p.2 ++ acc) []

/-- All hosts of the inventory, across every datacenter. -/
def Inventory.allHosts (inv : Inventory) : List MoHostSystem :=
  flattenHosts inv.dcs

/-- The `World` induced by a failure-free inventory. -/
def Inventory.world (inv : Inventory) : World where
  objectReference := fun ref =>
    match inv.allHosts.find? (fun h => h.self = ref) with
    | some h => .ok (HostSystem.mk h.self h.name)
    | none => .error (.managedObjectNotFound ref.value)
  datacenterList := .ok (inv.dcs.map Prod.fst)
  createContainerView := fun _ => .ok ()
  retrieveHosts := fun dc =>
    match inv.dcs.find? (fun p => p.1 = dc) with
    | some p => .ok p.2
    | none => .ok []

/-- Number of hosts of the inventory carrying a given name. -/
def matchCount (hosts : List MoHostSystem) (hostname : String) : Nat :=
  (hosts.filter (fun h => h.name = hostname)).length

/-- The inventory is well formed when distinct datacenters and distinct hosts
have distinct managed object references, which vSphere guarantees for live
inventory objects. -/
def Inventory.wf (inv : Inventory) : Prop :=
  (inv.dcs.map Prod.fst).Nodup ∧ (inv.allHosts.map (fun h => h.self)).Nodup

/-- The external calls of the iscsi software adapter import besides host
resolution: fetching the host storage system properties and locating the
software iscsi adapter (its `Device` name) among them. -/
structure IscsiWorld where
  world : World
  /-- hostsystem.GetHostStorageSystemPropertiesFromHost -/
  storageProps : HostSystem → Except GoError Unit
  /-- iscsi.GetIscsiSoftwareAdater, reduced to the Device of the adapter -/
  adapterDevice : HostSystem → Except GoError String

/-- Go strings.Split with a one-character colon separator, structurally: the
characters of each field are accumulated in reverse. -/
def splitCharsOnColon : List Char → List Char → List String
  | [], acc => [String.mk acc.reverse]
  | c :: rest, acc =>
    if c = ':' then String.mk acc.reverse :: splitCharsOnColon rest []
    else splitCharsOnColon rest (c :: acc)

/-- strings.Split(s, colon), as the iscsi import applies it to the import id. -/
def stringsSplitColon (s : String) : List String :=
  splitCharsOnColon s.data []

/-- resourceVSphereIscsiSoftwareAdapterImport: splits the import id on the
colon, resolves the host part through CheckIfHostnameOrID, fetches storage
properties and the software adapter, then persists the resolved identifier
flavor with d.SetId and d.Set. -/
def resourceVSphereIscsiSoftwareAdapterImport (c : IscsiWorld) (d : ResourceData) :
    GoResult (Except GoError ResourceData) :=
  let idSplit := stringsSplitColon d.id
  if idSplit.length ≠ 2 then
    .ret (.error .invalidImportFormat)
  else
    match CheckIfHostnameOrID c.world (idSplit.headD "") with
    | .exit code => .exit code
    | .panicked => .panicked
    | .ret (_, _, some e) => .ret (.error (.importHostRetrieval e))
    | .ret (none, _, none) => .panicked
    | .ret (some host, hr, none) =>
      match c.storageProps host with
      | .error e => .ret (.error (.importStorageProps e))
      | .ok _ =>
        match c.adapterDevice host with
        | .error e => .ret (.error (.importAdapter e))
        | .ok device =>
          .ret (.ok (({ d with id := hr.value ++ ":" ++ device }).set hr.idName hr.value))

/-- The REST payload shapes vsphereVcenterDNSUpdate sends to the appliance
DNS servers endpoint: the older nested `config` form and the newer flat form. -/
inductive DNSPayload where
  /-- body `config: (mode, servers)` -/
  | nested (mode : String) (servers : List String)
  /-- body `(mode, servers)` -/
  | flat (mode : String) (servers : List String)
deriving DecidableEq, Repr

/-- REST path of the appliance DNS servers endpoint. -/
def dnsServersPath : String := "/appliance/networking/dns/servers"

/-- The appliance REST session: viapi.RestUpdateRequest per method, path and
payload; `none` is success. -/
structure RestWorld where
  restUpdateRequest : String → String → DNSPayload → Option GoError

/-- vsphereVcenterDNSUpdate: PUTs the nested payload to the DNS servers
endpoint; if that request errors, PUTs the flat payload before erroring out.
Returns the Go error together with the trace of requests issued, in order. -/
def vsphereVcenterDNSUpdate (w : RestWorld) (servers : List String) :
    Option GoError × List DNSPayload :=
  match w.restUpdateRequest "PUT" dnsServersPath (.nested "is_static" servers) with
  | none => (none, [.nested "is_static" servers])
  | some _ =>
    match w.restUpdateRequest "PUT" dnsServersPath (.flat "is_static" servers) with
    | none => (none, [.nested "is_static" servers, .flat "is_static" servers])
    | some e2 =>
      (some (.dnsUpdateFailed e2),
        [.nested "is_static" servers, .flat "is_static" servers])

/-- The calls EnterMaintenanceMode / ExitMaintenanceMode make against one
host: the properties fetch backing HostInMaintenance, and the mode-change
tasks with their wait and task-info results. -/
structure MaintWorld where
  /-- hostsystem.Properties, reduced to Runtime.InMaintenanceMode -/
  hostProps : Except GoError Bool
  /-- host.EnterMaintenanceMode task issuance, per evacuate flag -/
  enterTask : Bool → Except GoError Unit
  /-- task.Wait for the enter task -/
  enterWait : Option GoError
  /-- task.Properties for the enter task, reduced to Info.State -/
  enterTaskState : Except GoError String
  /-- host.ExitMaintenanceMode task issuance -/
  exitTask : Except GoError Unit
  /-- task.Wait for the exit task -/
  exitWait : Option GoError
  /-- task.Properties for the exit task, reduced to Info.State -/
  exitTaskState : Except GoError String
  /-- viapi.VimValidateVirtualCenter: none when connected to vCenter -/
  validateVC : Option GoError

/-- HostInMaintenance: fetches host properties and reports
Runtime.InMaintenanceMode. -/
def HostInMaintenance (w : MaintWorld) : Except GoError Bool :=
  w.hostProps

/-- EnterMaintenanceMode: skips the task when the host is already in
maintenance mode; otherwise issues the task (evacuate forced off when not
connected to vCenter), waits, and checks the task state.  The boolean records
whether the mode-change task was issued. -/
def EnterMaintenanceMode (w : MaintWorld) (evacuate : Bool) :
    Option GoError × Bool :=
  let evac := match w.validateVC with
    | some _ => false
    | none => evacuate
  match HostInMaintenance w with
  | .error e => (some e, false)
  | .ok true => (none, false)
  | .ok false =>
    match w.enterTask evac with
    | .error e => (some e, true)
    | .ok _ =>
      match w.enterWait with
      | some e => (some e, true)
      | none =>
        match w.enterTaskState with
        | .error e => (some e, true)
        | .ok state =>
          if state ≠ "success" then (some (.taskFailed state), true)
          else (none, true)

/-- ExitMaintenanceMode: skips the task when the host is already out of
maintenance mode; otherwise issues the task, waits, and checks the task
state.  The boolean records whether the mode-change task was issued. -/
def ExitMaintenanceMode (w : MaintWorld) : Option GoError × Bool :=
  match HostInMaintenance w with
  | .error e => (some e, false)
  | .ok false => (none, false)
  | .ok true =>
    match w.exitTask with
    | .error e => (some e, true)
    | .ok _ =>
      match w.exitWait with
      | some e => (some e, true)
      | none =>
        match w.exitTaskState with
        | .error e => (some e, true)
        | .ok state =>
          if state ≠ "success" then (some (.taskFailed state), true)
          else (none, true)

/-! ### Concrete sessions and inputs used by the witnesses -/

/-- The host object the inventory world hands back for a host reference, as
FromHostname receives it from finder.ObjectReference. -/
def objResolve (inv : Inventory) (m : MoHostSystem) : HostSystem :=
  match inv.allHosts.find? (fun h => h.self = m.self) with
  | some x => HostSystem.mk x.self x.name
  | none => HostSystem.mk m.self m.name

/-- A failure-free session with two datacenters, each holding one host named
esxi1. -/
def invTwoDCs : Inventory :=
  Inventory.mk
    [(ManagedObjectReference.mk "Datacenter" "dc-1",
       [MoHostSystem.mk (ManagedObjectReference.mk "HostSystem" "host-10") "esxi1"]),
     (ManagedObjectReference.mk "Datacenter" "dc-2",
       [MoHostSystem.mk (ManagedObjectReference.mk "HostSystem" "host-20") "esxi1"])]

/-- A failure-free session with one datacenter holding one host named esxi1. -/
def invOne : Inventory :=
  Inventory.mk
    [(ManagedObjectReference.mk "Datacenter" "dc-1",
       [MoHostSystem.mk (ManagedObjectReference.mk "HostSystem" "host-10") "esxi1"])]

/-- What CheckIfHostnameOrID does with the outcome of the hostname search
once the fallback is entered. -/
def hostnameFallback (o : GoOutcome HostSystem) :
    GoResult (Option HostSystem × HostReturn × Option GoError) :=
  match o with
  | .ok host => .ret (some host, HostReturn.mk "hostname" host.name, none)
  | .err e2 =>
    if !errIsHostnameNotFound e2 then
      .ret (none, HostReturn.mk "" "", some e2)
    else
      .ret (none, HostReturn.mk "" "", some .hostnameOrIDNotFound)
  | .exit c => .exit c

/-- A session whose reference lookup fails with a transport error. -/
def wTransport : World :=
  World.mk (fun _ => .error (.transport "connection reset"))
    (.ok []) (fun _ => .ok ()) (fun _ => .ok [])

/-- A session whose reference lookup fails with the managed-object-not-found
fault and whose datacenter listing fails with a transport error. -/
def wMonf : World :=
  World.mk (fun _ => .error (.managedObjectNotFound "host-1"))
    (.error (.transport "dc listing failed")) (fun _ => .ok ()) (fun _ => .ok [])

/-- A session with one datacenter whose container-view creation fails with a
transport error. -/
def wViewFail : World :=
  World.mk (fun _ => .error (.managedObjectNotFound "h"))
    (.ok [ManagedObjectReference.mk "Datacenter" "dc-1"])
    (fun _ => .error (.transport "view creation failed"))
    (fun _ => .ok [])

/-- A session with two datacenters: the first one is scanned cleanly and
holds one matching host, the second one fails container-view creation. -/
def wViewFailSecond : World :=
  World.mk
    (fun r => .ok (HostSystem.mk r "esxi1"))
    (.ok [ManagedObjectReference.mk "Datacenter" "dc-1",
      ManagedObjectReference.mk "Datacenter" "dc-2"])
    (fun dc => if dc.value = "dc-2" then
      .error (.transport "view creation failed") else .ok ())
    (fun dc => if dc.value = "dc-1" then
      .ok [MoHostSystem.mk (ManagedObjectReference.mk "HostSystem" "host-10") "esxi1"]
      else .ok [])

/-- A session with one datacenter whose host retrieval fails with a
transport error. -/
def wRetrieveFail : World :=
  World.mk (fun _ => .error (.managedObjectNotFound "h"))
    (.ok [ManagedObjectReference.mk "Datacenter" "dc-1"])
    (fun _ => .ok ())
    (fun _ => .error (.transport "host retrieval failed"))

/-- A session with one datacenter holding one matching host whose
object-reference resolution fails with a transport error. -/
def wRefFail : World :=
  World.mk (fun _ => .error (.transport "ref lookup failed"))
    (.ok [ManagedObjectReference.mk "Datacenter" "dc-1"])
    (fun _ => .ok ())
    (fun _ => .ok
      [MoHostSystem.mk (ManagedObjectReference.mk "HostSystem" "host-10") "esxi1"])

/-- ResourceData with both identifier attributes populated. -/
def dBoth : ResourceData :=
  ResourceData.mk ""
    [("host_system_id", some "host-10"), ("hostname", some "esxi1")]

/-- ResourceData with the same host_system_id but a different hostname. -/
def dBothOther : ResourceData :=
  ResourceData.mk ""
    [("host_system_id", some "host-10"), ("hostname", some "other-host")]

/-- ResourceData with host_system_id empty and hostname nil. -/
def dNeither : ResourceData :=
  ResourceData.mk "" [("host_system_id", some ""), ("hostname", none)]

/-- A session agreeing with invOne on reference lookup but failing every
hostname-search call. -/
def wHostnameBroken : World :=
  World.mk invOne.world.objectReference
    (.error (.transport "dc listing down"))
    (fun _ => .error (.transport "no views"))
    (fun _ => .error (.transport "no hosts"))

/-- A REST session in which every update request fails. -/
def restAlwaysFails : RestWorld :=
  RestWorld.mk (fun _ _ _ => some (.transport "bad request"))

/-- A REST session in which every update request succeeds. -/
def restOK : RestWorld :=
  RestWorld.mk (fun _ _ _ => none)

/-- A host currently in maintenance mode, with all task calls available. -/
def mwInMaint : MaintWorld :=
  MaintWorld.mk (.ok true) (fun _ => .ok ()) none (.ok "success")
    (.ok ()) none (.ok "success") none

/-- A host currently out of maintenance mode, with all task calls available. -/
def mwOutMaint : MaintWorld :=
  MaintWorld.mk (.ok false) (fun _ => .ok ()) none (.ok "success")
    (.ok ()) none (.ok "success") none

/-- The iscsi import pipeline over the one-host session, with storage
properties and the software adapter (device vmhba64) available. -/
def iscsiW : IscsiWorld :=
  IscsiWorld.mk invOne.world (fun _ => .ok ()) (fun _ => .ok "vmhba64")

/-- ResourceData as handed to the iscsi import, with the combined import id. -/
def dImport : ResourceData := ResourceData.mk "host-10:vmhba64" []

/-- The ResourceData the iscsi import of dImport produces. -/
def dImported : ResourceData :=
  ResourceData.mk ("host-10" ++ ":" ++ "vmhba64")
    [("host_system_id", some "host-10")]

/-! ### Helper lemmas about the hostname scan over a failure-free inventory -/

theorem flattenHosts_cons (p : ManagedObjectReference × List MoHostSystem)
    (ds : List (ManagedObjectReference × List MoHostSystem)) :
    flattenHosts (p :: ds) = p.2 ++ flattenHosts ds := rfl

theorem matchCount_cons (x : MoHostSystem) (L : List MoHostSystem) (hostname : String) :
    matchCount (x :: L) hostname =
      (if x.name = hostname then 1 else 0) + matchCount L hostname := by
  by_cases hx : x.name = hostname <;>
    simp [matchCount, List.filter_cons, hx, Nat.add_comm]

theorem matchCount_append (a b : List MoHostSystem) (hostname : String) :
    matchCount (a ++ b) hostname = matchCount a hostname + matchCount b hostname := by
  simp [matchCount, List.filter_append]

theorem find_self_of_nodup :
    ∀ (L : List MoHostSystem), (L.map (fun h => h.self)).Nodup →
    ∀ m, m ∈ L → L.find? (fun h => h.self = m.self) = some m := by
  intro L
  induction L with
  | nil => intro _ m hm; simp at hm
  | cons x xs ih =>
    intro hnd m hm
    rw [List.map_cons, List.nodup_cons] at hnd
    rcases List.mem_cons.mp hm with hmx | hmxs
    · subst hmx
      simp [List.find?]
    · have hxm : ¬(x.self = m.self) := by
        intro hcontra
        exact hnd.1 (hcontra ▸ List.mem_map_of_mem (fun h => h.self) hmxs)
      simp only [List.find?, hxm, decide_eq_false, Bool.false_eq_true, if_false]
      exact ih hnd.2 m hmxs

theorem find_fst_of_nodup :
    ∀ (L : List (ManagedObjectReference × List MoHostSystem)),
    (L.map Prod.fst).Nodup →
    ∀ p, p ∈ L → L.find? (fun q => q.1 = p.1) = some p := by
  intro L
  induction L with
  | nil => intro _ p hp; simp at hp
  | cons x xs ih =>
    intro hnd p hp
    rw [List.map_cons, List.nodup_cons] at hnd
    rcases List.mem_cons.mp hp with hpx | hpxs
    · subst hpx
      simp [List.find?]
    · have hxp : ¬(x.1 = p.1) := by
        intro hcontra
        exact hnd.1 (hcontra ▸ List.mem_map_of_mem Prod.fst hpxs)
      simp only [List.find?, hxp, decide_eq_false, Bool.false_eq_true, if_false]
      exact ih hnd.2 p hpxs

theorem mem_flattenHosts :
    ∀ (ds : List (ManagedObjectReference × List MoHostSystem))
      (p : ManagedObjectReference × List MoHostSystem) (m : MoHostSystem),
      p ∈ ds → m ∈ p.2 → m ∈ flattenHosts ds := by
  intro ds
  induction ds with
  | nil => intro p m hp _; simp at hp
  | cons q qs ih =>
    intro p m hp hm
    rw [flattenHosts_cons, List.mem_append]
    rcases List.mem_cons.mp hp with hpq | hpqs
    · exact Or.inl (hpq ▸ hm)
    · exact Or.inr (ih p m hpqs hm)

theorem objectReference_mem (inv : Inventory) (m : MoHostSystem)
    (hm : m ∈ inv.allHosts) :
    inv.world.objectReference m.self = .ok (objResolve inv m) := by
  cases hf : inv.allHosts.find? (fun h => h.self = m.self) with
  | some x => simp [Inventory.world, objResolve, hf]
  | none =>
    have := List.find?_eq_none.mp hf m hm
    simp at this

theorem objResolve_of_wf (inv : Inventory) (m : MoHostSystem)
    (hnd : (inv.allHosts.map (fun h => h.self)).Nodup) (hm : m ∈ inv.allHosts) :
    objResolve inv m = HostSystem.mk m.self m.name := by
  unfold objResolve
  rw [find_self_of_nodup inv.allHosts hnd m hm]

theorem retrieveHosts_of_mem (inv : Inventory)
    (hnd : (inv.dcs.map Prod.fst).Nodup)
    (p : ManagedObjectReference × List MoHostSystem) (hp : p ∈ inv.dcs) :
    inv.world.retrieveHosts p.1 = .ok p.2 := by
  simp [Inventory.world, find_fst_of_nodup inv.dcs hnd p hp]

theorem scanHosts_count_zero (w : World) (hostname : String) :
    ∀ (L : List MoHostSystem) (c : Nat) (h : Option HostSystem),
      matchCount L hostname = 0 →
      scanHosts w hostname L c h = Sum.inr (c, h) := by
  intro L
  induction L with
  | nil => intro c h _; rfl
  | cons x xs ih =>
    intro c h hcnt
    rw [matchCount_cons] at hcnt
    by_cases hx : x.name = hostname
    · simp [hx] at hcnt
    · rw [if_neg hx, Nat.zero_add] at hcnt
      simp only [scanHosts, hx, if_false]
      exact ih c h hcnt

theorem scanHosts_counter_one (w : World) (hostname : String) :
    ∀ (L : List MoHostSystem) (h : Option HostSystem),
      1 ≤ matchCount L hostname →
      scanHosts w hostname L 1 h = Sum.inl (.err (.ambiguousHostname hostname)) := by
  intro L
  induction L with
  | nil => intro h hcnt; simp [matchCount] at hcnt
  | cons x xs ih =>
    intro h hcnt
    by_cases hx : x.name = hostname
    · simp [scanHosts, hx]
    · rw [matchCount_cons, if_neg hx, Nat.zero_add] at hcnt
      simp only [scanHosts, hx, if_false]
      exact ih h hcnt

theorem scanHosts_counter_zero_one (inv : Inventory) (hostname : String) :
    ∀ (L : List MoHostSystem) (h : Option HostSystem),
      (∀ m, m ∈ L → m ∈ inv.allHosts) →
      matchCount L hostname = 1 →
      ∃ m, m ∈ L ∧ m.name = hostname ∧
        scanHosts inv.world hostname L 0 h = Sum.inr (1, some (objResolve inv m)) := by
  intro L
  induction L with
  | nil => intro h _ hcnt; simp [matchCount] at hcnt
  | cons x xs ih =>
    intro h hsub hcnt
    rw [matchCount_cons] at hcnt
    by_cases hx : x.name = hostname
    · refine ⟨x, List.mem_cons_self x xs, hx, ?_⟩
      rw [if_pos hx] at hcnt
      have hxs : matchCount xs hostname = 0 := by omega
      have hmem : x ∈ inv.allHosts := hsub x (List.mem_cons_self x xs)
      simp only [scanHosts, hx, if_true]
      rw [objectReference_mem inv x hmem]
      simp only []
      exact scanHosts_count_zero inv.world hostname xs 1 (some (objResolve inv x)) hxs
    · rw [if_neg hx, Nat.zero_add] at hcnt
      obtain ⟨m, hm, hname, hscan⟩ :=
        ih h (fun m hm => hsub m (List.mem_cons_of_mem x hm)) hcnt
      refine ⟨m, List.mem_cons_of_mem x hm, hname, ?_⟩
      simp only [scanHosts, hx, if_false]
      exact hscan

theorem scanHosts_counter_zero_two (inv : Inventory) (hostname : String) :
    ∀ (L : List MoHostSystem) (h : Option HostSystem),
      (∀ m, m ∈ L → m ∈ inv.allHosts) →
      2 ≤ matchCount L hostname →
      scanHosts inv.world hostname L 0 h =
        Sum.inl (.err (.ambiguousHostname hostname)) := by
  intro L
  induction L with
  | nil => intro h _ hcnt; simp [matchCount] at hcnt
  | cons x xs ih =>
    intro h hsub hcnt
    rw [matchCount_cons] at hcnt
    by_cases hx : x.name = hostname
    · rw [if_pos hx] at hcnt
      have hxs : 1 ≤ matchCount xs hostname := by omega
      have hmem : x ∈ inv.allHosts := hsub x (List.mem_cons_self x xs)
      simp only [scanHosts, hx, if_true]
      rw [objectReference_mem inv x hmem]
      simp only []
      exact scanHosts_counter_one inv.world hostname xs (some (objResolve inv x)) hxs
    · rw [if_neg hx, Nat.zero_add] at hcnt
      simp only [scanHosts, hx, if_false]
      exact ih h (fun m hm => hsub m (List.mem_cons_of_mem x hm)) hcnt

theorem matchCount_zero_no_match (L : List MoHostSystem) (hostname : String)
    (h : matchCount L hostname = 0) : ∀ m, m ∈ L → ¬(m.name = hostname) := by
  intro m hm hname
  have hmem : m ∈ L.filter (fun x => x.name = hostname) :=
    List.mem_filter.mpr ⟨hm, by simp [hname]⟩
  unfold matchCount at h
  rw [List.length_eq_zero] at h
  rw [h] at hmem
  simp at hmem

theorem scanHosts_pass (w : World) (hostname : String) :
    ∀ (L : List MoHostSystem) (c : Nat) (h : Option HostSystem),
      c + matchCount L hostname ≤ 1 →
      (∀ m, m ∈ L → m.name = hostname →
        ∃ hs, w.objectReference m.self = Except.ok hs) →
      ∃ h2, scanHosts w hostname L c h =
        Sum.inr (c + matchCount L hostname, h2) := by
  intro L
  induction L with
  | nil =>
    intro c h _ _
    exact ⟨h, by simp [scanHosts, matchCount]⟩
  | cons x xs ih =>
    intro c h hle hobj
    rw [matchCount_cons] at hle ⊢
    by_cases hx : x.name = hostname
    · rw [if_pos hx] at hle ⊢
      have hc : c = 0 := by omega
      subst hc
      have hxs : matchCount xs hostname = 0 := by omega
      obtain ⟨hs, hhs⟩ := hobj x (List.mem_cons_self x xs) hx
      simp only [scanHosts, hx, if_true]
      rw [if_neg (by omega : ¬(0 + 1 > 1)), hhs]
      obtain ⟨h2, hrec⟩ := ih 1 (some hs) (by omega)
        (fun m hm hn => hobj m (List.mem_cons_of_mem x hm) hn)
      refine ⟨h2, ?_⟩
      dsimp only
      simp only [Nat.zero_add]
      exact hrec
    · rw [if_neg hx] at hle ⊢
      simp only [Nat.zero_add] at hle ⊢
      simp only [scanHosts, hx, if_false]
      exact ih c h hle (fun m hm hn => hobj m (List.mem_cons_of_mem x hm) hn)

theorem scanDCs_pass (w : World) (hostname : String) :
    ∀ (pre : List (ManagedObjectReference × List MoHostSystem)) (c : Nat)
      (h : Option HostSystem) (tail : List ManagedObjectReference),
      (∀ p, p ∈ pre → w.createContainerView p.1 = .ok () ∧
        w.retrieveHosts p.1 = .ok p.2) →
      c + matchCount (flattenHosts pre) hostname ≤ 1 →
      (∀ m, m ∈ flattenHosts pre → m.name = hostname →
        ∃ hs, w.objectReference m.self = Except.ok hs) →
      ∃ h2, scanDCs w hostname (pre.map Prod.fst ++ tail) c h =
        scanDCs w hostname tail
          (c + matchCount (flattenHosts pre) hostname) h2 := by
  intro pre
  induction pre with
  | nil =>
    intro c h tail _ _ _
    exact ⟨h, by simp [flattenHosts, matchCount]⟩
  | cons p pre ih =>
    intro c h tail hclean hle hobj
    have hcv := (hclean p (List.mem_cons_self p pre)).1
    have hrh := (hclean p (List.mem_cons_self p pre)).2
    rw [flattenHosts_cons, matchCount_append] at hle ⊢
    rw [List.map_cons, List.cons_append]
    simp only [scanDCs, hcv, hrh]
    obtain ⟨h1, hsc⟩ := scanHosts_pass w hostname p.2 c h (by omega)
      (fun m hm hn =>
        hobj m (by rw [flattenHosts_cons]; exact List.mem_append_left _ hm) hn)
    rw [hsc]
    obtain ⟨h2, hrec⟩ := ih (c + matchCount p.2 hostname) h1 tail
      (fun q hq => hclean q (List.mem_cons_of_mem p hq)) (by omega)
      (fun m hm hn =>
        hobj m (by rw [flattenHosts_cons]; exact List.mem_append_right _ hm) hn)
    refine ⟨h2, ?_⟩
    dsimp only
    rw [hrec, Nat.add_assoc]

theorem scanHosts_append_no_match (w : World) (hostname : String) :
    ∀ (L1 L2 : List MoHostSystem) (c : Nat) (h : Option HostSystem),
      matchCount L1 hostname = 0 →
      scanHosts w hostname (L1 ++ L2) c h = scanHosts w hostname L2 c h := by
  intro L1
  induction L1 with
  | nil => intro L2 c h _; rfl
  | cons x xs ih =>
    intro L2 c h hcnt
    rw [matchCount_cons] at hcnt
    by_cases hx : x.name = hostname
    · rw [if_pos hx] at hcnt; omega
    · rw [if_neg hx] at hcnt
      rw [List.cons_append]
      simp only [scanHosts, hx, if_false]
      exact ih L2 c h (by omega)

theorem scanDCs_char (inv : Inventory) (hostname : String)
    (hnd : (inv.dcs.map Prod.fst).Nodup) :
    ∀ (ds : List (ManagedObjectReference × List MoHostSystem)),
      (∀ p, p ∈ ds → p ∈ inv.dcs) →
      (∀ (c : Nat) (h : Option HostSystem),
        matchCount (flattenHosts ds) hostname = 0 →
        scanDCs inv.world hostname (ds.map Prod.fst) c h =
          (match h with
            | some x => GoOutcome.ok x
            | none => GoOutcome.err .hostnameNotFound)) ∧
      (∀ (h : Option HostSystem),
        matchCount (flattenHosts ds) hostname = 1 →
        ∃ m, m ∈ flattenHosts ds ∧ m.name = hostname ∧
          scanDCs inv.world hostname (ds.map Prod.fst) 0 h =
            GoOutcome.ok (objResolve inv m)) ∧
      (∀ (h : Option HostSystem),
        2 ≤ matchCount (flattenHosts ds) hostname →
        scanDCs inv.world hostname (ds.map Prod.fst) 0 h =
          GoOutcome.err (.ambiguousHostname hostname)) ∧
      (∀ (h : Option HostSystem),
        1 ≤ matchCount (flattenHosts ds) hostname →
        scanDCs inv.world hostname (ds.map Prod.fst) 1 h =
          GoOutcome.err (.ambiguousHostname hostname)) := by
  intro ds
  induction ds with
  | nil =>
    intro _
    refine ⟨fun c h _ => rfl, fun h hcnt => ?_, fun h hcnt => ?_, fun h hcnt => ?_⟩
    · simp [flattenHosts, matchCount] at hcnt
    · simp [flattenHosts, matchCount] at hcnt
    · simp [flattenHosts, matchCount] at hcnt
  | cons p ds ih =>
    intro hsub
    have hp : p ∈ inv.dcs := hsub p (List.mem_cons_self p ds)
    have hsub' : ∀ q, q ∈ ds → q ∈ inv.dcs :=
      fun q hq => hsub q (List.mem_cons_of_mem p hq)
    have hallsub : ∀ m, m ∈ p.2 → m ∈ inv.allHosts :=
      fun m hm => mem_flattenHosts inv.dcs p m hp hm
    have hcv : inv.world.createContainerView p.1 = .ok () := rfl
    have hrh := retrieveHosts_of_mem inv hnd p hp
    obtain ⟨ihA, ihB, ihC, ihD⟩ := ih hsub'
    have hstep : ∀ (c : Nat) (h : Option HostSystem),
        scanDCs inv.world hostname ((p :: ds).map Prod.fst) c h =
          (match scanHosts inv.world hostname p.2 c h with
            | Sum.inl out => out
            | Sum.inr (c2, h2) =>
                scanDCs inv.world hostname (ds.map Prod.fst) c2 h2) := by
      intro c h
      rw [List.map_cons]
      simp only [scanDCs, hcv, hrh]
    refine ⟨fun c h hcnt => ?_, fun h hcnt => ?_, fun h hcnt => ?_, fun h hcnt => ?_⟩
    · -- no match anywhere: the scan passes the state through
      rw [flattenHosts_cons, matchCount_append] at hcnt
      rw [hstep c h,
        scanHosts_count_zero inv.world hostname p.2 c h (by omega)]
      exact ihA c h (by omega)
    · -- exactly one match in total
      rw [flattenHosts_cons, matchCount_append] at hcnt
      by_cases h1 : matchCount p.2 hostname = 1
      · obtain ⟨m, hm, hname, hscan⟩ :=
          scanHosts_counter_zero_one inv hostname p.2 h hallsub h1
        refine ⟨m, by rw [flattenHosts_cons]; exact List.mem_append_left _ hm,
          hname, ?_⟩
        rw [hstep 0 h, hscan]
        exact ihA 1 (some (objResolve inv m)) (by omega)
      · have h0 : matchCount p.2 hostname = 0 := by
          rcases Nat.lt_or_ge (matchCount p.2 hostname) 1 with hlt | hge
          · omega
          · omega
        obtain ⟨m, hm, hname, hscan⟩ := ihB h (by omega)
        refine ⟨m, by rw [flattenHosts_cons]; exact List.mem_append_right _ hm,
          hname, ?_⟩
        rw [hstep 0 h,
          scanHosts_count_zero inv.world hostname p.2 0 h h0]
        exact hscan
    · -- at least two matches in total, counter still zero
      rw [flattenHosts_cons, matchCount_append] at hcnt
      by_cases h2 : 2 ≤ matchCount p.2 hostname
      · rw [hstep 0 h,
          scanHosts_counter_zero_two inv hostname p.2 h hallsub h2]
      · by_cases h1 : matchCount p.2 hostname = 1
        · obtain ⟨m, hm, hname, hscan⟩ :=
            scanHosts_counter_zero_one inv hostname p.2 h hallsub h1
          rw [hstep 0 h, hscan]
          exact ihD (some (objResolve inv m)) (by omega)
        · have h0 : matchCount p.2 hostname = 0 := by omega
          rw [hstep 0 h,
            scanHosts_count_zero inv.world hostname p.2 0 h h0]
          exact ihC h (by omega)
    · -- a match already seen: any further match is ambiguous
      rw [flattenHosts_cons, matchCount_append] at hcnt
      by_cases h1 : 1 ≤ matchCount p.2 hostname
      · rw [hstep 1 h,
          scanHosts_counter_one inv.world hostname p.2 h h1]
      · have h0 : matchCount p.2 hostname = 0 := by omega
        rw [hstep 1 h,
          scanHosts_count_zero inv.world hostname p.2 1 h h0]
        exact ihD h (by omega)

theorem matchCount_one_unique (L : List MoHostSystem) (hostname : String)
    (hcnt : matchCount L hostname = 1) :
    ∀ m m', m ∈ L → m.name = hostname → m' ∈ L → m'.name = hostname → m' = m := by
  obtain ⟨a, ha⟩ := List.length_eq_one.mp hcnt
  intro m m' hm hname hm' hname'
  have h1 : m ∈ L.filter (fun h => h.name = hostname) :=
    List.mem_filter.mpr ⟨hm, by simp [hname]⟩
  have h2 : m' ∈ L.filter (fun h => h.name = hostname) :=
    List.mem_filter.mpr ⟨hm', by simp [hname']⟩
  rw [show L.filter (fun h => h.name = hostname) =
    L.filter (fun h => decide (h.name = hostname)) from rfl, ha] at h1 h2
  rw [List.mem_singleton] at h1 h2
  rw [h1, h2]

theorem fromHostname_inv (inv : Inventory) (hostname : String) (hwf : inv.wf) :
    (matchCount inv.allHosts hostname = 0 →
      FromHostname inv.world hostname = .err .hostnameNotFound) ∧
    (matchCount inv.allHosts hostname = 1 →
      ∃ m, m ∈ inv.allHosts ∧ m.name = hostname ∧
        (∀ m', m' ∈ inv.allHosts → m'.name = hostname → m' = m) ∧
        FromHostname inv.world hostname = .ok (HostSystem.mk m.self m.name)) ∧
    (2 ≤ matchCount inv.allHosts hostname →
      FromHostname inv.world hostname = .err (.ambiguousHostname hostname)) := by
  have hdl : FromHostname inv.world hostname =
      scanDCs inv.world hostname (inv.dcs.map Prod.fst) 0 none := rfl
  obtain ⟨hA, hB, hC, _⟩ :=
    scanDCs_char inv hostname hwf.1 inv.dcs (fun p hp => hp)
  refine ⟨fun hcnt => ?_, fun hcnt => ?_, fun hcnt => ?_⟩
  · rw [hdl]
    exact hA 0 none hcnt
  · obtain ⟨m, hm, hname, hscan⟩ := hB none hcnt
    refine ⟨m, hm, hname,
      fun m' hm' hname' => matchCount_one_unique inv.allHosts hostname hcnt
        m m' hm hname hm' hname', ?_⟩
    rw [hdl, hscan, objResolve_of_wf inv m hwf.2 hm]
  · rw [hdl]
    exact hC none hcnt

theorem fromID_inv_ref (inv : Inventory) (id : String) (h : HostSystem)
    (hok : FromID inv.world id = .ok h) :
    h.ref = ManagedObjectReference.mk "HostSystem" id := by
  have hrw : FromID inv.world id =
      (match inv.allHosts.find?
          (fun x => x.self = ManagedObjectReference.mk "HostSystem" id) with
        | some x => Except.ok (HostSystem.mk x.self x.name)
        | none => Except.error (GoError.managedObjectNotFound id)) := rfl
  rw [hrw] at hok
  cases hf : inv.allHosts.find?
      (fun x => x.self = ManagedObjectReference.mk "HostSystem" id) with
  | none => rw [hf] at hok; simp at hok
  | some x =>
    rw [hf] at hok
    have hx := List.find?_some hf
    simp only [decide_eq_true_eq] at hx
    injection hok with hh
    rw [← hh, hx]

theorem fromHostname_ok_char (inv : Inventory) (hostname : String)
    (h : HostSystem) (hwf : inv.wf)
    (hok : FromHostname inv.world hostname = .ok h) :
    h.name = hostname ∧ matchCount inv.allHosts hostname = 1 ∧
    ∃ m, m ∈ inv.allHosts ∧ m.name = hostname ∧
      h = HostSystem.mk m.self m.name ∧
      (∀ m', m' ∈ inv.allHosts → m'.name = hostname → m' = m) := by
  obtain ⟨hA, hB, hC⟩ := fromHostname_inv inv hostname hwf
  by_cases hz : matchCount inv.allHosts hostname = 0
  · rw [hA hz] at hok; simp at hok
  · by_cases h2 : 2 ≤ matchCount inv.allHosts hostname
    · rw [hC h2] at hok; simp at hok
    · have h1 : matchCount inv.allHosts hostname = 1 := by omega
      obtain ⟨m, hm, hname, huniq, heq⟩ := hB h1
      rw [heq] at hok
      injection hok with hh
      exact ⟨by rw [← hh, hname], h1, m, hm, hname, hh.symm, huniq⟩

/-- The lookup guard of FromHostnameOrID forces a present, non-empty
attribute value. -/
theorem attrSet_get (d : ResourceData) (k : String) (h : attrSet d k = true) :
    d.get k = some ((d.get k).getD "") := by
  unfold attrSet at h
  cases hg : d.get k with
  | none => rw [hg] at h; simp at h
  | some s => simp [hg]

theorem resourceData_get_set (d : ResourceData) (k v : String) :
    (d.set k v).get k = some v := by
  simp [ResourceData.set, ResourceData.get, List.find?]

/-! ### Claim theorems -/

/-- C2: when more than one host across all datacenters visible to the session
carries the requested hostname, FromHostname returns the ambiguity error and
no host object; the duplicate counter accumulates across datacenters rather
than resetting per datacenter, so the theorem covers same-named hosts living
in different datacenters (as the witness exercises). -/
theorem fromHostname_rejects_duplicates (inv : Inventory) (hostname : String)
    (hwf : inv.wf) (hdup : 2 ≤ matchCount inv.allHosts hostname) :
    FromHostname inv.world hostname = .err (.ambiguousHostname hostname) :=
  (fromHostname_inv inv hostname hwf).2.2 hdup

theorem fromHostname_rejects_duplicates_witness :
    FromHostname invTwoDCs.world "esxi1" = .err (.ambiguousHostname "esxi1") :=
  fromHostname_rejects_duplicates invTwoDCs "esxi1"
    (by constructor <;> decide) (by decide)

/-- C5: successful resolution matches the identifier exactly: FromID returns
only a host whose managed object reference is the requested HostSystem id,
and FromHostname returns only the unique host carrying the requested hostname
among all datacenters visible to the session. -/
theorem resolution_matches_identifier :
    (∀ (inv : Inventory) (id : String) (h : HostSystem),
      FromID inv.world id = .ok h →
      h.ref = ManagedObjectReference.mk "HostSystem" id) ∧
    (∀ (inv : Inventory) (hostname : String) (h : HostSystem), inv.wf →
      FromHostname inv.world hostname = .ok h →
      h.name = hostname ∧ matchCount inv.allHosts hostname = 1 ∧
      ∃ m, m ∈ inv.allHosts ∧ m.name = hostname ∧
        h = HostSystem.mk m.self m.name ∧
        (∀ m', m' ∈ inv.allHosts → m'.name = hostname → m' = m)) :=
  ⟨fun inv id h hok => fromID_inv_ref inv id h hok,
   fun inv hostname h hwf hok => fromHostname_ok_char inv hostname h hwf hok⟩

theorem resolution_matches_identifier_witness :
    (HostSystem.mk (ManagedObjectReference.mk "HostSystem" "host-10") "esxi1").ref =
      ManagedObjectReference.mk "HostSystem" "host-10" ∧
    (HostSystem.mk (ManagedObjectReference.mk "HostSystem" "host-10") "esxi1").name =
      "esxi1" :=
  ⟨resolution_matches_identifier.1 invOne "host-10"
      (HostSystem.mk (ManagedObjectReference.mk "HostSystem" "host-10") "esxi1") rfl,
    (resolution_matches_identifier.2 invOne "esxi1"
      (HostSystem.mk (ManagedObjectReference.mk "HostSystem" "host-10") "esxi1")
      (by constructor <;> decide) rfl).1⟩

/-- C1: CheckIfHostnameOrID resolves by reference ID first: when FromID
succeeds the result comes from it alone, with no dependence on the
hostname-search side of the session; when FromID fails, the hostname fallback
runs exactly when the error is classified as managed-object-not-found, and
any other FromID error is handed back unchanged, again independently of the
hostname-search side. -/
theorem checkIfHostnameOrID_id_first (w : World) (tfID : String) :
    (∀ host, FromID w tfID = .ok host →
      ∀ w' : World, w'.objectReference = w.objectReference →
        CheckIfHostnameOrID w' tfID =
          .ret (some host, HostReturn.mk "host_system_id" host.ref.value, none)) ∧
    (∀ e, FromID w tfID = .error e →
      (IsManagedObjectNotFoundError e = true →
        CheckIfHostnameOrID w tfID = hostnameFallback (FromHostname w tfID)) ∧
      (IsManagedObjectNotFoundError e = false →
        ∀ w' : World, w'.objectReference = w.objectReference →
          CheckIfHostnameOrID w' tfID =
            .ret (none, HostReturn.mk "" "", some e))) := by
  constructor
  · intro host hID w' hobj
    have hID' : FromID w' tfID = .ok host := by
      simp only [FromID, hobj]
      exact hID
    simp only [CheckIfHostnameOrID, hID']
  · intro e hID
    constructor
    · intro hmof
      simp only [CheckIfHostnameOrID, hID, hmof]
      cases hF : FromHostname w tfID <;> simp [hostnameFallback, hF]
    · intro hmof w' hobj
      have hID' : FromID w' tfID = .error e := by
        simp only [FromID, hobj]
        exact hID
      simp only [CheckIfHostnameOrID, hID', hmof]
      simp

theorem checkIfHostnameOrID_id_first_witness :
    CheckIfHostnameOrID wHostnameBroken "host-10" =
      .ret (some (HostSystem.mk (ManagedObjectReference.mk "HostSystem" "host-10") "esxi1"),
        HostReturn.mk "host_system_id" "host-10", none) ∧
    CheckIfHostnameOrID wTransport "host-1" =
      .ret (none, HostReturn.mk "" "", some (.transport "connection reset")) ∧
    CheckIfHostnameOrID wMonf "host-1" =
      hostnameFallback (FromHostname wMonf "host-1") :=
  ⟨(checkIfHostnameOrID_id_first invOne.world "host-10").1
      (HostSystem.mk (ManagedObjectReference.mk "HostSystem" "host-10") "esxi1")
      rfl wHostnameBroken rfl,
   ((checkIfHostnameOrID_id_first wTransport "host-1").2
      (.transport "connection reset") rfl).2 rfl wTransport rfl,
   ((checkIfHostnameOrID_id_first wMonf "host-1").2
      (.managedObjectNotFound "host-1") rfl).1 rfl⟩

/-- C3 counterexample: on a transport failure of container-view creation the
hostname search does not return any error to the caller: FromHostname
terminates the whole process via os.Exit(1), so no error (sentinel or
otherwise) reaches CheckIfHostnameOrID. -/
theorem fromHostname_exit_on_view_failure :
    FromHostname wViewFail "esxi1" = .exit 1 := rfl

/-- C3 amended: ErrHostnameNotFound is returned exactly when the search
completes with no match; a datacenter-listing failure is propagated unchanged
as a distinct (non-sentinel) error, and a failing object-reference retrieval
at the first matching host is returned wrapped as a distinct (non-sentinel)
error; but a transport failure of container-view creation or of host
retrieval, at any datacenter the scan reaches, makes FromHostname terminate
the process via os.Exit(1) instead of returning an error; when the fallback
of CheckIfHostnameOrID runs, the sentinel is mapped to ErrHostnameOrIDNotFound
and any other returned error is propagated unchanged. -/
theorem fromHostname_error_classification :
    (∀ (inv : Inventory) (hostname : String), inv.wf →
      (FromHostname inv.world hostname = .err .hostnameNotFound ↔
        matchCount inv.allHosts hostname = 0)) ∧
    (∀ (w : World) (hostname : String) (e : GoError),
      w.datacenterList = .error e → FromHostname w hostname = .err e) ∧
    (∀ (w : World) (hostname : String)
      (pre : List (ManagedObjectReference × List MoHostSystem))
      (dc : ManagedObjectReference) (rest : List ManagedObjectReference)
      (L1 L2 : List MoHostSystem) (m : MoHostSystem) (e : GoError),
      w.datacenterList = .ok (pre.map Prod.fst ++ dc :: rest) →
      (∀ p, p ∈ pre → w.createContainerView p.1 = .ok () ∧
        w.retrieveHosts p.1 = .ok p.2) →
      matchCount (flattenHosts pre) hostname = 0 →
      w.createContainerView dc = .ok () →
      w.retrieveHosts dc = .ok (L1 ++ m :: L2) →
      matchCount L1 hostname = 0 →
      m.name = hostname →
      w.objectReference m.self = .error e →
      FromHostname w hostname = .err (.objectRefRetrieval e)) ∧
    (∀ (w : World) (hostname : String)
      (pre : List (ManagedObjectReference × List MoHostSystem))
      (dc : ManagedObjectReference) (rest : List ManagedObjectReference)
      (e : GoError),
      w.datacenterList = .ok (pre.map Prod.fst ++ dc :: rest) →
      (∀ p, p ∈ pre → w.createContainerView p.1 = .ok () ∧
        w.retrieveHosts p.1 = .ok p.2) →
      matchCount (flattenHosts pre) hostname ≤ 1 →
      (∀ m, m ∈ flattenHosts pre → m.name = hostname →
        ∃ hs, w.objectReference m.self = Except.ok hs) →
      w.createContainerView dc = .error e →
      FromHostname w hostname = .exit 1) ∧
    (∀ (w : World) (hostname : String)
      (pre : List (ManagedObjectReference × List MoHostSystem))
      (dc : ManagedObjectReference) (rest : List ManagedObjectReference)
      (e : GoError),
      w.datacenterList = .ok (pre.map Prod.fst ++ dc :: rest) →
      (∀ p, p ∈ pre → w.createContainerView p.1 = .ok () ∧
        w.retrieveHosts p.1 = .ok p.2) →
      matchCount (flattenHosts pre) hostname ≤ 1 →
      (∀ m, m ∈ flattenHosts pre → m.name = hostname →
        ∃ hs, w.objectReference m.self = Except.ok hs) →
      w.createContainerView dc = .ok () →
      w.retrieveHosts dc = .error e →
      FromHostname w hostname = .exit 1) ∧
    (∀ (w : World) (tfID : String) (e e2 : GoError),
      FromID w tfID = .error e → IsManagedObjectNotFoundError e = true →
      FromHostname w tfID = .err e2 →
      (e2 = .hostnameNotFound →
        CheckIfHostnameOrID w tfID =
          .ret (none, HostReturn.mk "" "", some .hostnameOrIDNotFound)) ∧
      (errIsHostnameNotFound e2 = false →
        CheckIfHostnameOrID w tfID =
          .ret (none, HostReturn.mk "" "", some e2))) := by
  refine ⟨fun inv hostname hwf => ?_, fun w hostname e hdl => ?_,
    fun w hostname pre dc rest L1 L2 m e hdl hclean hpre0 hcv hrh hL1 hmn href => ?_,
    fun w hostname pre dc rest e hdl hclean hle hobj hcv => ?_,
    fun w hostname pre dc rest e hdl hclean hle hobj hcv hrh => ?_,
    fun w tfID e e2 hID hmof hF => ?_⟩
  · obtain ⟨hA, hB, hC⟩ := fromHostname_inv inv hostname hwf
    constructor
    · intro hsent
      by_cases hz : matchCount inv.allHosts hostname = 0
      · exact hz
      · by_cases h2 : 2 ≤ matchCount inv.allHosts hostname
        · rw [hC h2] at hsent; simp at hsent
        · have h1 : matchCount inv.allHosts hostname = 1 := by omega
          obtain ⟨m, _, _, _, heq⟩ := hB h1
          rw [heq] at hsent; simp at hsent
    · exact hA
  · simp only [FromHostname, hdl]
  · obtain ⟨h2, hpass⟩ := scanDCs_pass w hostname pre 0 none (dc :: rest) hclean
      (by omega)
      (fun m' hm' hn' => absurd hn' (matchCount_zero_no_match _ _ hpre0 m' hm'))
    simp only [FromHostname, hdl]
    rw [hpass, hpre0]
    simp only [Nat.add_zero]
    simp only [scanDCs, hcv, hrh]
    rw [scanHosts_append_no_match w hostname L1 (m :: L2) 0 h2 hL1]
    simp only [scanHosts, hmn, if_true]
    rw [if_neg (by omega : ¬(0 + 1 > 1)), href]
  · obtain ⟨h2, hpass⟩ := scanDCs_pass w hostname pre 0 none (dc :: rest) hclean
      (by omega) hobj
    simp only [FromHostname, hdl]
    rw [hpass]
    simp only [scanDCs, hcv]
  · obtain ⟨h2, hpass⟩ := scanDCs_pass w hostname pre 0 none (dc :: rest) hclean
      (by omega) hobj
    simp only [FromHostname, hdl]
    rw [hpass]
    simp only [scanDCs, hcv, hrh]
  · constructor
    · intro hsent
      subst hsent
      simp only [CheckIfHostnameOrID, hID, hmof, hF]
      simp [errIsHostnameNotFound]
    · intro hns
      simp only [CheckIfHostnameOrID, hID, hmof, hF, hns]
      simp

theorem fromHostname_error_classification_witness :
    (FromHostname invOne.world "absent" = .err .hostnameNotFound ↔
      matchCount invOne.allHosts "absent" = 0) ∧
    FromHostname wMonf "esxi1" = .err (.transport "dc listing failed") ∧
    FromHostname wRefFail "esxi1" =
      .err (.objectRefRetrieval (.transport "ref lookup failed")) ∧
    FromHostname wViewFailSecond "esxi1" = .exit 1 ∧
    FromHostname wRetrieveFail "esxi1" = .exit 1 ∧
    CheckIfHostnameOrID wMonf "host-1" =
      .ret (none, HostReturn.mk "" "", some (.transport "dc listing failed")) :=
  ⟨fromHostname_error_classification.1 invOne "absent" (by constructor <;> decide),
   fromHostname_error_classification.2.1 wMonf "esxi1"
      (.transport "dc listing failed") rfl,
   fromHostname_error_classification.2.2.1 wRefFail "esxi1" []
      (ManagedObjectReference.mk "Datacenter" "dc-1") [] [] []
      (MoHostSystem.mk (ManagedObjectReference.mk "HostSystem" "host-10") "esxi1")
      (.transport "ref lookup failed") rfl
      (fun p hp => absurd hp (List.not_mem_nil p)) rfl rfl rfl rfl rfl rfl,
   fromHostname_error_classification.2.2.2.1 wViewFailSecond "esxi1"
      [(ManagedObjectReference.mk "Datacenter" "dc-1",
        [MoHostSystem.mk (ManagedObjectReference.mk "HostSystem" "host-10") "esxi1"])]
      (ManagedObjectReference.mk "Datacenter" "dc-2") []
      (.transport "view creation failed") rfl
      (by intro p hp; rw [List.mem_singleton] at hp; subst hp; exact ⟨rfl, rfl⟩)
      (by decide)
      (fun m' _ _ => ⟨HostSystem.mk m'.self "esxi1", rfl⟩) rfl,
   fromHostname_error_classification.2.2.2.2.1 wRetrieveFail "esxi1" []
      (ManagedObjectReference.mk "Datacenter" "dc-1") []
      (.transport "host retrieval failed") rfl
      (fun p hp => absurd hp (List.not_mem_nil p)) (by decide)
      (fun m hm _ => absurd hm (List.not_mem_nil m)) rfl rfl,
   (fromHostname_error_classification.2.2.2.2.2 wMonf "host-1"
      (.managedObjectNotFound "host-1") (.transport "dc listing failed")
      rfl rfl rfl).2 rfl⟩

/-- C6: FromHostnameOrID gives host_system_id strict precedence: whenever
host_system_id is set, the result depends only on its value and on the
reference-lookup side of the session (the hostname attribute and the
hostname-search calls are never consulted); and when neither attribute is
set (nil or empty), the function returns the fixed error without any lookup
(the result does not depend on the session at all). -/
theorem fromHostnameOrID_precedence :
    (∀ (w w' : World) (d d' : ResourceData),
      attrSet d "host_system_id" = true →
      attrSet d' "host_system_id" = true →
      d'.get "host_system_id" = d.get "host_system_id" →
      w'.objectReference = w.objectReference →
      FromHostnameOrID w' d' = FromHostnameOrID w d) ∧
    (∀ (w w' : World) (d : ResourceData),
      attrSet d "host_system_id" = false →
      attrSet d "hostname" = false →
      FromHostnameOrID w d =
        .ret (none, HostReturn.mk "" "", some .noValidTfIDAttribute) ∧
      FromHostnameOrID w' d = FromHostnameOrID w d) := by
  constructor
  · intro w w' d d' h1 h1' hget hobj
    simp only [FromHostnameOrID, h1, h1', if_true, hget]
    simp only [FromID, hobj]
  · intro w w' d h1 h2
    have hmain : ∀ w2 : World, FromHostnameOrID w2 d =
        .ret (none, HostReturn.mk "" "", some .noValidTfIDAttribute) := by
      intro w2
      simp only [FromHostnameOrID, h1, h2]
      simp
    exact ⟨hmain w, by rw [hmain w, hmain w']⟩

theorem fromHostnameOrID_precedence_witness :
    FromHostnameOrID wHostnameBroken dBothOther = FromHostnameOrID invOne.world dBoth ∧
    FromHostnameOrID invOne.world dNeither =
      .ret (none, HostReturn.mk "" "", some .noValidTfIDAttribute) :=
  ⟨fromHostnameOrID_precedence.1 invOne.world wHostnameBroken dBoth dBothOther
      rfl rfl rfl rfl,
   (fromHostnameOrID_precedence.2 invOne.world wHostnameBroken dNeither rfl rfl).1⟩

/-- C8: when CheckIfHostnameOrID reports an error, the HostReturn it hands
back is the zero value and the host is nil; when FromHostnameOrID has
selected an identifier attribute and the underlying lookup fails, the
HostReturn still carries the attribute name and value that were attempted,
alongside the error. -/
theorem error_return_payloads :
    (∀ (w : World) (tfID : String) (host : Option HostSystem)
      (hr : HostReturn) (e : GoError),
      CheckIfHostnameOrID w tfID = .ret (host, hr, some e) →
      hr = HostReturn.mk "" "" ∧ host = none) ∧
    (∀ (w : World) (d : ResourceData) (e : GoError),
      (attrSet d "host_system_id" = true →
        FromID w ((d.get "host_system_id").getD "") = .error e →
        FromHostnameOrID w d =
          .ret (none, HostReturn.mk "host_system_id"
            ((d.get "host_system_id").getD ""), some e)) ∧
      (attrSet d "host_system_id" = false →
        attrSet d "hostname" = true →
        FromHostname w ((d.get "hostname").getD "") = .err e →
        FromHostnameOrID w d =
          .ret (none, HostReturn.mk "hostname"
            ((d.get "hostname").getD ""), some e))) := by
  constructor
  · intro w tfID host hr e hret
    unfold CheckIfHostnameOrID at hret
    cases hID : FromID w tfID with
    | ok h => rw [hID] at hret; simp at hret
    | error e0 =>
      rw [hID] at hret
      by_cases hmof : IsManagedObjectNotFoundError e0
      · simp only [hmof, Bool.not_true, Bool.false_eq_true, if_false] at hret
        cases hF : FromHostname w tfID with
        | ok h2 => rw [hF] at hret; simp at hret
        | exit c => rw [hF] at hret; simp at hret
        | err e2 =>
          rw [hF] at hret
          by_cases hs : errIsHostnameNotFound e2 <;>
            simp only [hs, Bool.not_true, Bool.not_false, Bool.false_eq_true,
              if_false, if_true, GoResult.ret.injEq, Prod.mk.injEq] at hret <;>
            exact ⟨hret.2.1.symm, hret.1.symm⟩
      · simp only [hmof, Bool.not_false, if_true, GoResult.ret.injEq,
          Prod.mk.injEq] at hret
        exact ⟨hret.2.1.symm, hret.1.symm⟩
  · intro w d e
    constructor
    · intro h1 hid
      simp only [FromHostnameOrID, h1, if_true, hid]
    · intro h1 h2 hhn
      simp only [FromHostnameOrID, h1, h2, Bool.false_eq_true, if_false,
        if_true, hhn]

theorem error_return_payloads_witness :
    (HostReturn.mk "" "" = HostReturn.mk "" "" ∧
      (none : Option HostSystem) = none) ∧
    FromHostnameOrID wTransport dBoth =
      .ret (none, HostReturn.mk "host_system_id" "host-10",
        some (.transport "connection reset")) :=
  ⟨error_return_payloads.1 wTransport "host-1" none (HostReturn.mk "" "")
      (.transport "connection reset") rfl,
   (error_return_payloads.2 wTransport dBoth (.transport "connection reset")).1
      rfl rfl⟩

/-- C7 counterexample: when the first PUT to the DNS servers endpoint fails,
vsphereVcenterDNSUpdate does not return the error immediately: it issues the
PUT a second time (with the flat payload), so the request trace has length
two, contradicting "at most once". -/
theorem vcenterDNSUpdate_retries_counterexample :
    vsphereVcenterDNSUpdate restAlwaysFails ["192.0.2.1"] =
      (some (.dnsUpdateFailed (.transport "bad request")),
        [.nested "is_static" ["192.0.2.1"], .flat "is_static" ["192.0.2.1"]]) ∧
    (vsphereVcenterDNSUpdate restAlwaysFails ["192.0.2.1"]).2.length = 2 :=
  ⟨rfl, rfl⟩

/-- C7 amended: the vCenter DNS update issues its PUT at most twice, not at
most once: the nested config payload is sent first; exactly when that request
fails, the flat payload is sent; the function returns an error (wrapping the
second failure) precisely when both requests fail, and succeeds as soon as
either request succeeds. -/
theorem vcenterDNSUpdate_at_most_twice (w : RestWorld) (servers : List String) :
    ((vsphereVcenterDNSUpdate w servers).2.length ≤ 2) ∧
    (w.restUpdateRequest "PUT" dnsServersPath (.nested "is_static" servers) = none →
      vsphereVcenterDNSUpdate w servers = (none, [.nested "is_static" servers])) ∧
    (∀ e1, w.restUpdateRequest "PUT" dnsServersPath (.nested "is_static" servers) =
        some e1 →
      (w.restUpdateRequest "PUT" dnsServersPath (.flat "is_static" servers) = none →
        vsphereVcenterDNSUpdate w servers =
          (none, [.nested "is_static" servers, .flat "is_static" servers])) ∧
      (∀ e2, w.restUpdateRequest "PUT" dnsServersPath (.flat "is_static" servers) =
          some e2 →
        vsphereVcenterDNSUpdate w servers =
          (some (.dnsUpdateFailed e2),
            [.nested "is_static" servers, .flat "is_static" servers]))) := by
  refine ⟨?_, fun h1 => ?_, fun e1 h1 => ⟨fun h2 => ?_, fun e2 h2 => ?_⟩⟩
  · unfold vsphereVcenterDNSUpdate
    cases w.restUpdateRequest "PUT" dnsServersPath (.nested "is_static" servers) with
    | none => simp
    | some e1 =>
      cases w.restUpdateRequest "PUT" dnsServersPath (.flat "is_static" servers) with
      | none => simp
      | some e2 => simp
  · simp only [vsphereVcenterDNSUpdate, h1]
  · simp only [vsphereVcenterDNSUpdate, h1, h2]
  · simp only [vsphereVcenterDNSUpdate, h1, h2]

theorem vcenterDNSUpdate_at_most_twice_witness :
    vsphereVcenterDNSUpdate restOK ["192.0.2.1"] =
      (none, [.nested "is_static" ["192.0.2.1"]]) ∧
    (vsphereVcenterDNSUpdate restAlwaysFails ["192.0.2.1"]).2.length ≤ 2 :=
  ⟨(vcenterDNSUpdate_at_most_twice restOK ["192.0.2.1"]).2.1 rfl,
   (vcenterDNSUpdate_at_most_twice restAlwaysFails ["192.0.2.1"]).1⟩

/-- C9: maintenance-mode changes are idempotent at the API boundary: with the
host already in maintenance mode, EnterMaintenanceMode returns nil without
issuing the mode-change task, and with the host already out of maintenance
mode, ExitMaintenanceMode returns nil without issuing the task. -/
theorem maintenanceMode_idempotent (w : MaintWorld) (evacuate : Bool) :
    (w.hostProps = .ok true → EnterMaintenanceMode w evacuate = (none, false)) ∧
    (w.hostProps = .ok false → ExitMaintenanceMode w = (none, false)) := by
  constructor
  · intro h
    simp only [EnterMaintenanceMode, HostInMaintenance, h]
  · intro h
    simp only [ExitMaintenanceMode, HostInMaintenance, h]

theorem maintenanceMode_idempotent_witness :
    EnterMaintenanceMode mwInMaint true = (none, false) ∧
    ExitMaintenanceMode mwOutMaint = (none, false) :=
  ⟨(maintenanceMode_idempotent mwInMaint true).1 rfl,
   (maintenanceMode_idempotent mwOutMaint false).2 rfl⟩

/-- C4: successful resolution reports the identifier flavor that produced the
host: FromHostnameOrID returns the consulted attribute name with its value
and CheckIfHostnameOrID returns host_system_id with the reference value, or
hostname with the host name, each equal to the requested identifier; and the
iscsi software adapter import persists exactly the reported flavor into the
resource attributes (d.Set hr.IDName hr.Value) and the resource id. -/
theorem resolution_reports_flavor :
    (∀ (w : World) (d : ResourceData) (host : HostSystem) (hr : HostReturn),
      FromHostnameOrID w d = .ret (some host, hr, none) →
      (hr.idName = "host_system_id" ∧ d.get "host_system_id" = some hr.value ∧
        FromID w hr.value = .ok host) ∨
      (hr.idName = "hostname" ∧ d.get "hostname" = some hr.value ∧
        FromHostname w hr.value = .ok host)) ∧
    (∀ (inv : Inventory) (tfID : String) (host : HostSystem) (hr : HostReturn),
      inv.wf →
      CheckIfHostnameOrID inv.world tfID = .ret (some host, hr, none) →
      (hr = HostReturn.mk "host_system_id" tfID ∧
        FromID inv.world tfID = .ok host) ∨
      (hr = HostReturn.mk "hostname" tfID ∧
        FromHostname inv.world tfID = .ok host)) ∧
    (∀ (c : IscsiWorld) (d d2 : ResourceData),
      resourceVSphereIscsiSoftwareAdapterImport c d = .ret (.ok d2) →
      ∃ host hr device,
        CheckIfHostnameOrID c.world ((stringsSplitColon d.id).headD "") =
          .ret (some host, hr, none) ∧
        d2.get hr.idName = some hr.value ∧
        d2.id = hr.value ++ ":" ++ device) := by
  refine ⟨fun w d host hr hret => ?_, fun inv tfID host hr hwf hret => ?_,
    fun c d d2 hret => ?_⟩
  · unfold FromHostnameOrID at hret
    by_cases h1 : attrSet d "host_system_id"
    · simp only [h1, if_true] at hret
      cases hID : FromID w ((d.get "host_system_id").getD "") with
      | ok hfound =>
        rw [hID] at hret
        simp only [GoResult.ret.injEq, Prod.mk.injEq, Option.some.injEq,
          and_true] at hret
        obtain ⟨hhost, hhr⟩ := hret
        subst hhost; subst hhr
        exact Or.inl ⟨rfl, attrSet_get d _ h1, hID⟩
      | error e => rw [hID] at hret; simp at hret
    · by_cases h2 : attrSet d "hostname"
      · simp only [h1, h2, Bool.false_eq_true, if_false, if_true] at hret
        cases hF : FromHostname w ((d.get "hostname").getD "") with
        | ok hfound =>
          rw [hF] at hret
          simp only [GoResult.ret.injEq, Prod.mk.injEq, Option.some.injEq,
            and_true] at hret
          obtain ⟨hhost, hhr⟩ := hret
          subst hhost; subst hhr
          exact Or.inr ⟨rfl, attrSet_get d _ h2, hF⟩
        | err e => rw [hF] at hret; simp at hret
        | exit cc => rw [hF] at hret; simp at hret
      · simp only [h1, h2, Bool.false_eq_true, if_false] at hret
        simp at hret
  · unfold CheckIfHostnameOrID at hret
    cases hID : FromID inv.world tfID with
    | ok hfound =>
      rw [hID] at hret
      simp only [GoResult.ret.injEq, Prod.mk.injEq, Option.some.injEq,
        and_true] at hret
      obtain ⟨hhost, hhr⟩ := hret
      subst hhost; subst hhr
      have href := fromID_inv_ref inv tfID hfound hID
      left
      constructor
      · rw [href]
      · rfl
    | error e =>
      rw [hID] at hret
      by_cases hmof : IsManagedObjectNotFoundError e
      · simp only [hmof, Bool.not_true, Bool.false_eq_true, if_false] at hret
        cases hF : FromHostname inv.world tfID with
        | ok h2 =>
          rw [hF] at hret
          simp only [GoResult.ret.injEq, Prod.mk.injEq, Option.some.injEq,
            and_true] at hret
          obtain ⟨hhost, hhr⟩ := hret
          subst hhost; subst hhr
          have hname := (fromHostname_ok_char inv tfID h2 hwf hF).1
          right
          constructor
          · rw [hname]
          · rfl
        | err e2 =>
          rw [hF] at hret
          by_cases hs : errIsHostnameNotFound e2 <;> simp [hs] at hret
        | exit cc => rw [hF] at hret; simp at hret
      · simp only [hmof, Bool.not_false, if_true] at hret
        simp at hret
  · simp only [resourceVSphereIscsiSoftwareAdapterImport] at hret
    split at hret
    · simp at hret
    · split at hret
      · simp at hret
      · simp at hret
      · simp at hret
      · simp at hret
      · rename_i host hr hcheck
        split at hret
        · simp at hret
        · split at hret
          · simp at hret
          · rename_i device hdev
            simp only [GoResult.ret.injEq, Except.ok.injEq] at hret
            subst hret
            exact ⟨host, hr, device, hcheck, resourceData_get_set _ _ _, rfl⟩

theorem resolution_reports_flavor_witness :
    ∃ host hr device,
      CheckIfHostnameOrID iscsiW.world ((stringsSplitColon dImport.id).headD "") =
        .ret (some host, hr, none) ∧
      dImported.get hr.idName = some hr.value ∧
      dImported.id = hr.value ++ ":" ++ device :=
  resolution_reports_flavor.2.2 iscsiW dImport dImported rfl
